import Mathlib

/-
Verification development for the motion-extraction program (src/main.rs).

The program is a three-stage pipeline: a capture thread produces compressed
camera frames, a decode thread turns each frame into a flat buffer of packed
24-bit pixels, and the render loop keeps a fixed-depth history of decoded
frames and displays a per-channel saturating difference between the newest
frame and three lagged frames.

This file gives a shallow embedding of the pieces of main.rs the claims are
about: the decode-stage pixel reindexing loop (lines 71-84), the frame
history deque and its push/evict logic (lines 104, 163-166), the lag
indexing (lines 168-172), the per-pixel diff engine (lines 174-181), the
capture loop (lines 33-47), the decode loop (lines 58-91) and the shutdown
sequence (lines 189-197). Machine integers (u32/usize) are modelled as Nat;
all arithmetic in the program stays far below 2^32, and u32 saturating_sub
coincides with truncated Nat subtraction. Vec and VecDeque are modelled as
List; frames held in the render-loop history are modelled as functions from
pixel index to packed value, matching the way the code only ever indexes
them.
-/

/-! ### Constants (main.rs lines 11-20) -/

def WIDTH : Nat := 1280

def HEIGHT : Nat := 720

def CHANNEL_OFFSET : Nat := 4

def BUFFER_SIZE : Nat := 2 + 2 * CHANNEL_OFFSET

/-! ### Decode stage (main.rs lines 71-84)

The decode thread walks the decoded RGB byte stream in chunks of 3
(chunks_exact(3).enumerate()), packs each chunk into one u32, and writes it
into decode_buf_u32 at a computed index, growing the buffer one row of
zeros at a time. -/

/-- Line 77: let row = (idx + WIDTH - 1) / WIDTH + 1; -/
def decode_row (idx : Nat) : Nat := (idx + WIDTH - 1) / WIDTH + 1

/-- Line 82: let index = row * WIDTH - (idx % WIDTH) - 1; -/
def decode_index (idx : Nat) : Nat := decode_row idx * WIDTH - idx % WIDTH - 1

/-- Line 83: (r << 16) | (g << 8) | b -/
def pack_rgb (r g b : Nat) : Nat := (r <<< 16) ||| (g <<< 8) ||| b

/-- Lines 72-75: pixels.chunks_exact(3) with each chunk packed to a u32.
chunks_exact drops a trailing partial chunk. -/
def pixels_of_bytes : List Nat → List Nat
  | r :: g :: b :: rest => pack_rgb r g b :: pixels_of_bytes rest
  | _ => []

/-- Lines 77-83, one loop iteration: grow the buffer by one row of zeros if
it is shorter than row * WIDTH, then write the packed pixel at the computed
index. The index is always in range after the growth step (proved below);
List.set is a no-op out of range, where the Rust indexing would panic. -/
def reindex_step (buf : List Nat) (idx p : Nat) : List Nat :=
  (if buf.length < decode_row idx * WIDTH then buf ++ List.replicate WIDTH 0
   else buf).set (decode_index idx) p

/-- Lines 72-84: the whole reindexing loop over the enumerated pixels,
starting from a cleared buffer. -/
def reindex_aux : Nat → List Nat → List Nat → List Nat
  | _, buf, [] => buf
  | idx, buf, p :: ps => reindex_aux (idx + 1) (reindex_step buf idx p) ps

/-- Lines 71-84: the buffer the decode stage builds from one decoded RGB
byte stream, i.e. the DecodedFrame it then sends to the render loop. -/
def decode_frame (bytes : List Nat) : List Nat :=
  reindex_aux 0 [] (pixels_of_bytes bytes)

/-- Lines 68-89, one received compressed frame: the jpeg decoder either
fails (decoder.decode().expect panics, killing the decode thread: no frame
is emitted, modelled as none) or yields the RGB byte stream, which is
reindexed and sent on unconditionally. There is no check of the decoded
pixel count against WIDTH * HEIGHT. -/
def decode_step (res : Except String (List Nat)) : Option (List Nat) :=
  match res with
  | Except.error _ => none
  | Except.ok bytes => some (decode_frame bytes)

/-- Lines 58-91: the decode loop over the stream of jpeg results of the
frames arriving on rx_capture; the first failing decode terminates the
whole loop (thread death), so nothing after it is processed. -/
def decode_loop : List (Except String (List Nat)) → List (List Nat)
  | [] => []
  | res :: rest =>
    match decode_step res with
    | none => []
    | some f => f :: decode_loop rest

/-! ### Frame history ring (main.rs lines 104, 163-166) -/

/-- The all-black frame: vec![0; WIDTH * HEIGHT] viewed through indexing. -/
def zero_frame : Nat → Nat := fun _ => 0

/-- Line 104: VecDeque::from(vec![vec![0; WIDTH * HEIGHT]; BUFFER_SIZE]).
The deque starts already holding BUFFER_SIZE all-zero frames. -/
def back_buffer_init : List (Nat → Nat) := List.replicate BUFFER_SIZE zero_frame

/-- Lines 163-166: push_back, then pop_front when the length exceeds
BUFFER_SIZE. -/
def ring_push {α : Type} (ring : List α) (f : α) : List α :=
  if BUFFER_SIZE < (ring ++ [f]).length then (ring ++ [f]).tail else ring ++ [f]

/-- The ring state after a sequence of render-loop iterations, each
receiving one decoded frame (line 163 executed once per frame). -/
def ring_push_all {α : Type} : List α → List α → List α
  | ring, [] => ring
  | ring, f :: fs => ring_push_all (ring_push ring f) fs

/-- Lines 169-172: lookback by lag k reads back_buffer at index
length.saturating_sub(1 + k); Nat subtraction is saturating. Out of the
code this is the HistoryRing operation at_lag. -/
def at_lag {α : Type} (d : α) (ring : List α) (k : Nat) : α :=
  ring.getD (ring.length - (1 + k)) d

/-! ### Diff engine (main.rs lines 174-181) -/

/-- u32::saturating_sub on channel values; identical to truncated Nat
subtraction. -/
def sat_sub (a b : Nat) : Nat := a - b

/-- (p >> 16) & 0xFF -/
def red_channel (p : Nat) : Nat := (p >>> 16) &&& 255

/-- (p >> 8) & 0xFF -/
def green_channel (p : Nat) : Nat := (p >>> 8) &&& 255

/-- p & 0xFF -/
def blue_channel (p : Nat) : Nat := p &&& 255

/-- Lines 175-180: the packed output pixel computed from the newest pixel
and the three lag-frame pixels. -/
def diff_pixel (p pr pg pb : Nat) : Nat :=
  sat_sub (red_channel p) (red_channel pr) <<< 16 |||
  sat_sub (green_channel p) (green_channel pg) <<< 8 |||
  sat_sub (blue_channel p) (blue_channel pb)

/-- Lines 168-181: the value written to diff_buf[i] (and then displayed by
update_with_buffer) for the current ring state: the newest frame diffed
against the frames at indices length-1, length.saturating_sub(2),
length.saturating_sub(2 + CHANNEL_OFFSET) and
length.saturating_sub(2 + CHANNEL_OFFSET + CHANNEL_OFFSET). -/
def frame_diff (ring : List (Nat → Nat)) (i : Nat) : Nat :=
  diff_pixel
    (ring.getD (ring.length - 1) zero_frame i)
    (ring.getD (ring.length - 2) zero_frame i)
    (ring.getD (ring.length - (2 + CHANNEL_OFFSET)) zero_frame i)
    (ring.getD (ring.length - (2 + CHANNEL_OFFSET + CHANNEL_OFFSET)) zero_frame i)

/-- The DiffEngine contract as the specification words it: for lags
k_r = 1, k_g = 5, k_b = 9, diff each channel of the newest frame against
the history frame at that lag, where the frame at lag k sits at ring index
length - 1 - k. Written from the specification for comparison with
frame_diff, which is written from the code. -/
def diff_engine_spec (ring : List (Nat → Nat)) (i : Nat) : Nat :=
  diff_pixel
    (ring.getD (ring.length - 1) zero_frame i)
    (ring.getD (ring.length - 1 - 1) zero_frame i)
    (ring.getD (ring.length - 1 - 5) zero_frame i)
    (ring.getD (ring.length - 1 - 9) zero_frame i)

/-! ### Capture loop (main.rs lines 33-47)

Each iteration first polls the close channel (rx_close.try_recv()), then
calls cam.capture(); a capture error is printed and breaks the loop; a
successful frame is sent, and a failed send (render side gone) also breaks.
The loop is given fuel since the Rust loop runs until one of those exits;
closed, cap and send_ok give the outcome each iteration would observe. The
result is the list of frames actually sent and the number of capture calls
made. -/

def capture_run {α : Type} (closed : Nat → Bool) (cap : Nat → Except String α)
    (send_ok : Nat → Bool) : Nat → Nat → List α × Nat
  | 0, _ => ([], 0)
  | fuel + 1, i =>
    if closed i then ([], 0)
    else
      match cap i with
      | Except.error _ => ([], 1)
      | Except.ok f =>
        if send_ok i then
          ((f :: (capture_run closed cap send_ok fuel (i + 1)).1),
            (capture_run closed cap send_ok fuel (i + 1)).2 + 1)
        else ([], 1)

/-! ### Shutdown sequence (main.rs lines 189-197)

After the render loop exits, main sends () on both close channels with
.expect, then joins both threads with .expect. Per std::sync::mpsc,
SyncSender::send returns Err exactly when the receiving end has been
dropped; each background thread owns its rx_close inside the spawned
closure, so the receiver is dropped as soon as that thread has returned,
whether it left its loop normally (capture error, send failure, closed
channel) or by panicking. JoinHandle::join returns Err exactly when the
thread panicked. A failing .expect is a panic in main, modelled as
Except.error carrying the expect message. -/

inductive StageState
  | running
  | exited
  | panicked
deriving DecidableEq

/-- Whether send on the close channel succeeds: the receiver is still
alive only while the stage thread is still running its loop. -/
def close_send_ok : StageState → Bool
  | StageState.running => true
  | StageState.exited => false
  | StageState.panicked => false

/-- Whether join returns Ok: only a panicked thread makes join fail; a
still-running stage observes the close signal at its next poll and
returns. -/
def join_ok : StageState → Bool
  | StageState.panicked => false
  | _ => true

/-- Lines 189-197 in order: send close to capture, send close to decode,
join capture, join decode, each unwrapped with .expect. -/
def main_shutdown (cap dec : StageState) : Except String Unit :=
  if close_send_ok cap = false then
    Except.error "Failed to send close signal to capture thread"
  else if close_send_ok dec = false then
    Except.error "Failed to send close signal to decode thread"
  else if join_ok cap = false then
    Except.error "Failed to join capture thread"
  else if join_ok dec = false then
    Except.error "Failed to join decode thread"
  else Except.ok ()

/-- The buffer length the reindexing loop maintains before processing the
pixel at position idx: zero rows initially, then decode_row of the previous
index, in rows of WIDTH. -/
def prev_len (idx : Nat) : Nat :=
  if idx = 0 then 0 else decode_row (idx - 1) * WIDTH

/-! ### Helper lemmas: history ring -/

lemma ring_push_length {α : Type} (r : List α) (f : α) (h : r.length ≤ BUFFER_SIZE) :
    (ring_push r f).length = min (r.length + 1) BUFFER_SIZE := by
  have hl : (r ++ [f]).length = r.length + 1 := by simp
  rcases Nat.lt_or_ge BUFFER_SIZE (r ++ [f]).length with hc | hc
  · rw [ring_push, if_pos hc, List.length_tail, hl]
    rw [hl] at hc
    omega
  · rw [ring_push, if_neg (Nat.not_lt.mpr hc), hl]
    rw [hl] at hc
    omega

lemma ring_push_all_length {α : Type} :
    ∀ (fs : List α) (r : List α), r.length ≤ BUFFER_SIZE →
      (ring_push_all r fs).length = min (r.length + fs.length) BUFFER_SIZE
  | [], r, h => by simp only [ring_push_all, List.length_nil, Nat.add_zero]; omega
  | f :: fs, r, h => by
    simp only [ring_push_all]
    rw [ring_push_all_length fs _ (by rw [ring_push_length r f h]; omega),
      ring_push_length r f h]
    simp only [List.length_cons]
    omega

lemma ring_init_length : back_buffer_init.length = BUFFER_SIZE := by
  simp [back_buffer_init]

lemma ring_push_all_init_length (fs : List (Nat → Nat)) :
    (ring_push_all back_buffer_init fs).length = BUFFER_SIZE := by
  rw [ring_push_all_length fs _ (le_of_eq ring_init_length), ring_init_length]
  omega

lemma getD_last_append {α : Type} (l : List α) (f d : α) :
    (l ++ [f]).getD ((l ++ [f]).length - 1) d = f := by
  simp only [List.getD_eq_getElem?_getD, List.length_append, List.length_singleton]
  rw [List.getElem?_append_right (by omega)]
  simp

lemma at_lag_push_last {α : Type} (d : α) (r : List α) (f : α) :
    at_lag d (ring_push r f) 0 = f := by
  rcases r with _ | ⟨a, r⟩
  · simp [ring_push, at_lag, BUFFER_SIZE, CHANNEL_OFFSET]
  · simp only [at_lag, Nat.add_zero]
    rcases Nat.lt_or_ge BUFFER_SIZE ((a :: r) ++ [f]).length with hc | hc
    · rw [ring_push, if_pos hc, List.cons_append, List.tail_cons]
      exact getD_last_append r f d
    · rw [ring_push, if_neg (Nat.not_lt.mpr hc)]
      exact getD_last_append (a :: r) f d

/-! ### Claims C4, C5, C10: history ring behaviour -/

/-- C4 counterexample: the history ring the program actually constructs
(line 104) already holds BUFFER_SIZE all-zero frames, so after pushing
m = 1 frame its length is BUFFER_SIZE = 10, not min(1, BUFFER_SIZE) = 1.
The claim that a newly constructed ring reaches length min(m, L) after m
pushes is therefore false of the code. -/
theorem C4_not_min_length :
    ¬ (ring_push_all back_buffer_init [zero_frame]).length = min 1 BUFFER_SIZE := by
  decide

/-- C4 amended: for the push operation of lines 163-166, a ring grown from
empty reaches length min(m, L) after m pushes; a ring no longer than L
stays no longer than L; a full ring evicts at the front on insertion at
the back; and the element at index length - 1 (at_lag 0) is always the
most recently pushed frame. The ring the program constructs, however,
starts out already full (see the C10 theorem). -/
theorem C4_history_ring_push :
    (∀ (α : Type) (fs : List α), (ring_push_all [] fs).length = min fs.length BUFFER_SIZE) ∧
    (∀ (α : Type) (r fs : List α), r.length ≤ BUFFER_SIZE →
      (ring_push_all r fs).length ≤ BUFFER_SIZE) ∧
    (∀ (α : Type) (r : List α) (f : α), r.length = BUFFER_SIZE →
      ring_push r f = r.tail ++ [f]) ∧
    (∀ (α : Type) (d : α) (r : List α) (f : α), at_lag d (ring_push r f) 0 = f) := by
  refine ⟨?_, ?_, ?_, ?_⟩
  · intro α fs
    rw [ring_push_all_length fs [] (by simp [BUFFER_SIZE])]
    simp
  · intro α r fs h
    rw [ring_push_all_length fs r h]
    omega
  · intro α r f h
    have hne : r ≠ [] := by
      intro he
      rw [he] at h
      simp [BUFFER_SIZE, CHANNEL_OFFSET] at h
    rw [ring_push, if_pos (by simp [h])]
    rw [List.tail_append_of_ne_nil hne]
  · intro α d r f
    exact at_lag_push_last d r f

/-- C4 witness: concrete instances of the amended push laws. -/
theorem C4_history_ring_push_witness :
    (ring_push_all ([] : List Nat) [21, 22, 23]).length =
      min ([21, 22, 23] : List Nat).length BUFFER_SIZE ∧
    ([0] : List Nat).length ≤ BUFFER_SIZE ∧
    (ring_push_all ([0] : List Nat) [21, 22, 23]).length ≤ BUFFER_SIZE ∧
    ([0, 1, 2, 3, 4, 5, 6, 7, 8, 9] : List Nat).length = BUFFER_SIZE ∧
    ring_push ([0, 1, 2, 3, 4, 5, 6, 7, 8, 9] : List Nat) 42 =
      ([0, 1, 2, 3, 4, 5, 6, 7, 8, 9] : List Nat).tail ++ [42] ∧
    at_lag 99 (ring_push ([5] : List Nat) 7) 0 = 7 :=
  ⟨C4_history_ring_push.1 Nat [21, 22, 23], by decide,
    C4_history_ring_push.2.1 Nat [0] [21, 22, 23] (by decide), by decide,
    C4_history_ring_push.2.2.1 Nat [0, 1, 2, 3, 4, 5, 6, 7, 8, 9] 42 (by decide),
    C4_history_ring_push.2.2.2 Nat 99 [5] 7⟩

/-- C5: for every nonempty ring state and every lag k, the lookback index
length.saturating_sub(1 + k) is in bounds; it equals length - 1 - k when
the ring holds at least k + 1 frames, and clamps to index 0 (the oldest
retained frame) when it holds fewer. -/
theorem C5_at_lag_clamp (α : Type) (d : α) (ring : List α) (k : Nat)
    (h : 0 < ring.length) :
    ring.length - (1 + k) < ring.length ∧
    (k + 1 ≤ ring.length → at_lag d ring k = ring.getD (ring.length - 1 - k) d) ∧
    (ring.length < k + 1 → at_lag d ring k = ring.getD 0 d) := by
  refine ⟨by omega, ?_, ?_⟩
  · intro hk
    rw [at_lag, show ring.length - 1 - k = ring.length - (1 + k) by omega]
  · intro hk
    rw [at_lag, show ring.length - (1 + k) = 0 by omega]

/-- C5 witness: the scenario from the specification, adjusted to the code:
push one all-zero frame into an empty ring, then look back by lags 5, 8
and 50; all three clamp to that single frame (default 99 is never used). -/
theorem C5_at_lag_clamp_witness :
    0 < (ring_push ([] : List Nat) 0).length ∧
    at_lag 99 (ring_push ([] : List Nat) 0) 5 = 0 ∧
    at_lag 99 (ring_push ([] : List Nat) 0) 8 = 0 ∧
    at_lag 99 (ring_push ([] : List Nat) 0) 50 = 0 := by
  have h5 := (C5_at_lag_clamp Nat 99 (ring_push [] 0) 5 (by decide)).2.2 (by decide)
  have h8 := (C5_at_lag_clamp Nat 99 (ring_push [] 0) 8 (by decide)).2.2 (by decide)
  have h50 := (C5_at_lag_clamp Nat 99 (ring_push [] 0) 50 (by decide)).2.2 (by decide)
  refine ⟨by decide, ?_, ?_, ?_⟩
  · rw [h5]; decide
  · rw [h8]; decide
  · rw [h50]; decide

/-- C10: the frame history starts out holding BUFFER_SIZE = 10 all-zero
frames (line 104); after any sequence of received frames its length is
still exactly BUFFER_SIZE (each push of one frame is followed by one
front eviction), so there is no startup transient, and the first received
frame is diffed against all-zero history frames on all three channels. -/
theorem C10_ring_prefilled :
    back_buffer_init.length = BUFFER_SIZE ∧
    BUFFER_SIZE = 2 + 2 * CHANNEL_OFFSET ∧
    BUFFER_SIZE = 10 ∧
    (∀ k i, back_buffer_init.getD k zero_frame i = 0) ∧
    (∀ fs : List (Nat → Nat), (ring_push_all back_buffer_init fs).length = BUFFER_SIZE) ∧
    (∀ (f : Nat → Nat) (i : Nat),
      frame_diff (ring_push back_buffer_init f) i = diff_pixel (f i) 0 0 0) := by
  refine ⟨ring_init_length, rfl, rfl, ?_, ring_push_all_init_length, ?_⟩
  · intro k i
    simp only [back_buffer_init, List.getD_eq_getElem?_getD, List.getElem?_replicate]
    split <;> rfl
  · intro f i
    rfl

/-! ### Claim C1: the diff engine formula -/

/-- C1: at every render-loop iteration (i.e. after any sequence of decoded
frames has been pushed into the initially full history), the value the
code computes for pixel i equals the specification formula: each channel
of the displayed pixel is the saturating difference between that channel
of the newest frame and the same channel of the history frame at lag 1
(red), lag 5 (green) and lag 9 (blue), packed; and those lags are
1 < 5 < 9, obtained from CHANNEL_OFFSET = 4. -/
theorem C1_diff_engine (fs : List (Nat → Nat)) (i : Nat) :
    frame_diff (ring_push_all back_buffer_init fs) i =
      diff_engine_spec (ring_push_all back_buffer_init fs) i ∧
    CHANNEL_OFFSET = 4 ∧ 5 = 1 + CHANNEL_OFFSET ∧ 9 = 1 + 2 * CHANNEL_OFFSET ∧
    (1 : Nat) < 5 ∧ (5 : Nat) < 9 := by
  refine ⟨?_, rfl, rfl, rfl, by decide, by decide⟩
  have h := ring_push_all_init_length fs
  rw [frame_diff, diff_engine_spec, h]
  norm_num [BUFFER_SIZE, CHANNEL_OFFSET]

/-! ### Claim C9: shutdown behaviour -/

/-- C9: the shutdown sequence returns cleanly only when both background
stages are still running when the render loop exits. If the capture stage
already stopped on its own (for example after a capture error), its close
channel receiver is gone, the send fails, and main panics at the first
.expect instead of returning cleanly; a decode stage that exited early
panics the second .expect; a stage that died by panic is caught at the
same send. -/
theorem C9_shutdown_panics :
    main_shutdown StageState.running StageState.running = Except.ok () ∧
    main_shutdown StageState.exited StageState.running =
      Except.error "Failed to send close signal to capture thread" ∧
    main_shutdown StageState.running StageState.exited =
      Except.error "Failed to send close signal to decode thread" ∧
    main_shutdown StageState.panicked StageState.running =
      Except.error "Failed to send close signal to capture thread" :=
  ⟨rfl, rfl, rfl, rfl⟩

/-! ### Claim C7: capture errors are fail-stop -/

lemma capture_run_bound {α : Type} (closed : Nat → Bool)
    (cap : Nat → Except String α) (send_ok : Nat → Bool) (j : Nat) (e : String)
    (h : cap j = Except.error e) :
    ∀ (fuel i : Nat), i ≤ j →
      (capture_run closed cap send_ok fuel i).2 ≤ j + 1 - i ∧
      (capture_run closed cap send_ok fuel i).1.length ≤ j - i
  | 0, i, _ => by simp [capture_run]
  | fuel + 1, i, hi => by
    simp only [capture_run]
    split
    · simp
    · cases hc : cap i with
      | error s =>
        refine ⟨?_, ?_⟩
        · show 1 ≤ j + 1 - i
          omega
        · show ([] : List α).length ≤ j - i
          simp
      | ok f =>
        have hij : i ≠ j := by
          intro he
          rw [he, h] at hc
          cases hc
        by_cases hs : send_ok i = true
        · have ih := capture_run_bound closed cap send_ok j e h fuel (i + 1) (by omega)
          simp only [hs, if_true, List.length_cons]
          omega
        · simp [hs]
          omega

/-- C7: if the capture attempt at iteration j fails, then however long the
capture loop runs, it makes at most j + 1 capture calls in total (none
after the failing one: no retry, fail-stop) and forwards at most j frames,
so the error ends the stream. -/
theorem C7_capture_fail_stop (α : Type) (closed : Nat → Bool)
    (cap : Nat → Except String α) (send_ok : Nat → Bool) (j : Nat) (e : String)
    (h : cap j = Except.error e) (fuel : Nat) :
    (capture_run closed cap send_ok fuel 0).2 ≤ j + 1 ∧
    (capture_run closed cap send_ok fuel 0).1.length ≤ j := by
  have hb := capture_run_bound closed cap send_ok j e h fuel 0 (Nat.zero_le j)
  omega

/-- C7 witness: a camera that fails on its third capture attempt; with
fuel 10 the loop makes at most 3 capture calls and sends at most 2
frames. -/
theorem C7_capture_fail_stop_witness :
    (fun i => if i = 2 then (Except.error "device failure" : Except String Nat)
      else Except.ok i) 2 = Except.error "device failure" ∧
    ((capture_run (fun _ => false)
        (fun i => if i = 2 then Except.error "device failure" else Except.ok i)
        (fun _ => true) 10 0).2 ≤ 3 ∧
      (capture_run (fun _ => false)
        (fun i => if i = 2 then Except.error "device failure" else Except.ok i)
        (fun _ => true) 10 0).1.length ≤ 2) :=
  ⟨rfl, C7_capture_fail_stop Nat (fun _ => false)
    (fun i => if i = 2 then Except.error "device failure" else Except.ok i)
    (fun _ => true) 2 "device failure" rfl 10⟩

/-! ### Claim C8: decode-stage error handling -/

/-- C8 counterexample: a successfully decoded frame of a single RGB pixel
(pixel count 1, a mismatch with WIDTH * HEIGHT) is emitted by the decode
stage rather than raising a fatal decode error, and the stage keeps
decoding further frames afterwards: no size check exists in the code. -/
theorem C8_no_size_check :
    (decode_step (Except.ok [5, 10, 20])).isSome = true ∧
    (pixels_of_bytes [5, 10, 20]).length ≠ WIDTH * HEIGHT ∧
    (decode_loop [Except.ok [5, 10, 20], Except.ok [5, 10, 20]]).length = 2 := by
  refine ⟨rfl, by decide, rfl⟩

/-- C8 amended: a malformed compressed frame (jpeg decode failure) is
fail-stop for the decode stage: every successfully decoded frame before it
is emitted, and nothing after it is ever decoded or emitted, whatever
follows; but a successfully decoded frame whose pixel count mismatches
WIDTH * HEIGHT is not detected and is emitted like any other frame. -/
theorem C8_decode_fail_stop :
    ∀ (frames : List (List Nat)) (e : String) (post : List (Except String (List Nat))),
      decode_loop (frames.map Except.ok ++ Except.error e :: post) =
        frames.map decode_frame
  | [], e, post => by simp [decode_loop, decode_step]
  | f :: fs, e, post => by
    simp only [List.map_cons, List.cons_append, decode_loop, decode_step,
      List.append_eq]
    rw [C8_decode_fail_stop fs e post]

/-! ### Claim C6: saturating per-channel difference -/

lemma pack_eq_add {dr dg db : Nat} (hg : dg ≤ 255) (hb : db ≤ 255) :
    (dr <<< 16) ||| (dg <<< 8) ||| db = dr * 65536 + dg * 256 + db := by
  have hg2 : dg * 2 ^ 8 < 2 ^ 16 := by
    have : dg * 256 < 65536 := by omega
    simpa using this
  have hb2 : db < 2 ^ 8 := by
    have : db < 256 := by omega
    simpa using this
  have e1 : (dr <<< 16) ||| (dg <<< 8) = 2 ^ 16 * dr + dg * 2 ^ 8 := by
    rw [Nat.shiftLeft_eq, Nat.shiftLeft_eq, Nat.mul_comm dr]
    exact (Nat.mul_add_lt_is_or hg2 dr).symm
  have e2 : 2 ^ 16 * dr + dg * 2 ^ 8 = 2 ^ 8 * (2 ^ 8 * dr + dg) := by ring
  rw [e1, e2, ← Nat.mul_add_lt_is_or hb2 (2 ^ 8 * dr + dg)]
  ring

lemma red_channel_pack {dr dg db : Nat} (hr : dr ≤ 255) (hg : dg ≤ 255)
    (hb : db ≤ 255) : red_channel ((dr <<< 16) ||| (dg <<< 8) ||| db) = dr := by
  rw [pack_eq_add hg hb, red_channel, Nat.shiftRight_eq_div_pow]
  have h255 : (255 : Nat) = 2 ^ 8 - 1 := by norm_num
  rw [h255, Nat.and_pow_two_sub_one_eq_mod]
  have hdiv : (dr * 65536 + dg * 256 + db) / 2 ^ 16 = dr := by
    have h16 : (2 : Nat) ^ 16 = 65536 := by norm_num
    rw [h16]
    omega
  rw [hdiv]
  have h8 : (2 : Nat) ^ 8 = 256 := by norm_num
  rw [h8]
  omega

lemma green_channel_pack {dr dg db : Nat} (hg : dg ≤ 255) (hb : db ≤ 255) :
    green_channel ((dr <<< 16) ||| (dg <<< 8) ||| db) = dg := by
  rw [pack_eq_add hg hb, green_channel, Nat.shiftRight_eq_div_pow]
  have h255 : (255 : Nat) = 2 ^ 8 - 1 := by norm_num
  rw [h255, Nat.and_pow_two_sub_one_eq_mod]
  have h8 : (2 : Nat) ^ 8 = 256 := by norm_num
  rw [h8]
  have hdiv : (dr * 65536 + dg * 256 + db) / 256 = dr * 256 + dg := by
    omega
  rw [hdiv]
  omega

lemma blue_channel_pack {dr dg db : Nat} (hg : dg ≤ 255) (hb : db ≤ 255) :
    blue_channel ((dr <<< 16) ||| (dg <<< 8) ||| db) = db := by
  rw [pack_eq_add hg hb, blue_channel]
  have h255 : (255 : Nat) = 2 ^ 8 - 1 := by norm_num
  rw [h255, Nat.and_pow_two_sub_one_eq_mod]
  have h8 : (2 : Nat) ^ 8 = 256 := by norm_num
  rw [h8]
  omega

lemma channel_le_255 (p : Nat) :
    red_channel p ≤ 255 ∧ green_channel p ≤ 255 ∧ blue_channel p ≤ 255 :=
  ⟨Nat.and_le_right, Nat.and_le_right, Nat.and_le_right⟩

lemma sat_sub_le_255 {a : Nat} (b : Nat) (h : a ≤ 255) : sat_sub a b ≤ 255 :=
  le_trans (Nat.sub_le a b) h

/-- C6: the per-channel difference is u32 saturating subtraction, which on
Nat channel values equals max(a - b, 0) computed in the integers: it never
wraps and never goes negative; every channel of the packed output pixel
equals the corresponding saturating difference and lies in [0, 255]; and
concretely 200 minus 50 saturates to 150 while 50 minus 200 saturates to 0,
not 206. -/
theorem C6_saturating_diff :
    (∀ a b : Nat, ((sat_sub a b : Nat) : Int) = max ((a : Int) - (b : Int)) 0) ∧
    (∀ p pr pg pb : Nat,
      red_channel (diff_pixel p pr pg pb) = sat_sub (red_channel p) (red_channel pr) ∧
      green_channel (diff_pixel p pr pg pb) = sat_sub (green_channel p) (green_channel pg) ∧
      blue_channel (diff_pixel p pr pg pb) = sat_sub (blue_channel p) (blue_channel pb) ∧
      red_channel (diff_pixel p pr pg pb) ≤ 255 ∧
      green_channel (diff_pixel p pr pg pb) ≤ 255 ∧
      blue_channel (diff_pixel p pr pg pb) ≤ 255) ∧
    sat_sub 200 50 = 150 ∧ sat_sub 50 200 = 0 := by
  refine ⟨?_, ?_, by decide, by decide⟩
  · intro a b
    simp only [sat_sub]
    omega
  · intro p pr pg pb
    have hr := sat_sub_le_255 (red_channel pr) (channel_le_255 p).1
    have hg := sat_sub_le_255 (green_channel pg) (channel_le_255 p).2.1
    have hb := sat_sub_le_255 (blue_channel pb) (channel_le_255 p).2.2
    have e1 := @red_channel_pack (sat_sub (red_channel p) (red_channel pr))
      (sat_sub (green_channel p) (green_channel pg))
      (sat_sub (blue_channel p) (blue_channel pb)) hr hg hb
    have e2 := @green_channel_pack (sat_sub (red_channel p) (red_channel pr))
      (sat_sub (green_channel p) (green_channel pg))
      (sat_sub (blue_channel p) (blue_channel pb)) hg hb
    have e3 := @blue_channel_pack (sat_sub (red_channel p) (red_channel pr))
      (sat_sub (green_channel p) (green_channel pg))
      (sat_sub (blue_channel p) (blue_channel pb)) hg hb
    rw [diff_pixel]
    exact ⟨e1, e2, e3, by rw [e1]; exact hr, by rw [e2]; exact hg, by rw [e3]; exact hb⟩

/-! ### Decode-stage invariants (claims C2 and C3)

The reindexing loop keeps decode_buf_u32 at a length of decode_row of the
last processed index times WIDTH; the write is always in range; distinct
loop indices write distinct positions. -/

lemma prev_len_step (idx : Nat) :
    prev_len idx = decode_row idx * WIDTH ∨
    prev_len idx + WIDTH = decode_row idx * WIDTH := by
  simp only [prev_len, decode_row, WIDTH]
  split
  · omega
  · omega

lemma reindex_step_length {buf : List Nat} {idx : Nat} (p : Nat)
    (h : buf.length = prev_len idx) :
    (reindex_step buf idx p).length = decode_row idx * WIDTH := by
  have h2 := prev_len_step idx
  rw [reindex_step, List.length_set]
  split
  · next h3 =>
    rw [List.length_append, List.length_replicate]
    omega
  · next h3 =>
    omega

lemma prev_len_succ (idx : Nat) : prev_len (idx + 1) = decode_row idx * WIDTH := by
  simp [prev_len]

lemma reindex_aux_length :
    ∀ (ps : List Nat) (idx : Nat) (buf : List Nat), buf.length = prev_len idx →
      (reindex_aux idx buf ps).length = prev_len (idx + ps.length)
  | [], idx, buf, h => by simpa using h
  | p :: ps, idx, buf, h => by
    rw [reindex_aux]
    have h2 : (reindex_step buf idx p).length = prev_len (idx + 1) := by
      rw [prev_len_succ]
      exact reindex_step_length p h
    rw [reindex_aux_length ps (idx + 1) _ h2, List.length_cons,
      show idx + 1 + ps.length = idx + (ps.length + 1) by omega]

lemma pixels_of_bytes_length :
    ∀ bs : List Nat, (pixels_of_bytes bs).length = bs.length / 3
  | r :: g :: b :: rest => by
    rw [pixels_of_bytes, List.length_cons, pixels_of_bytes_length rest]
    simp only [List.length_cons]
    omega
  | [] => by simp [pixels_of_bytes]
  | [a] => by simp [pixels_of_bytes]
  | [a, b] => by simp [pixels_of_bytes]

/-- C2: a decoded image of exactly WIDTH * HEIGHT RGB samples (a byte
stream of length 3 * WIDTH * HEIGHT) does not produce a DecodedFrame of
WIDTH * HEIGHT packed pixels: the off-by-one in the row computation on
line 77 makes the loop allocate one extra row, so the emitted frame holds
WIDTH * (HEIGHT + 1) = 922880 pixels, not 921600. -/
theorem C2_decode_frame_size (bs : List Nat)
    (h : bs.length = 3 * (WIDTH * HEIGHT)) :
    (decode_frame bs).length = WIDTH * (HEIGHT + 1) ∧
    WIDTH * (HEIGHT + 1) ≠ WIDTH * HEIGHT := by
  constructor
  · have hp : (pixels_of_bytes bs).length = WIDTH * HEIGHT := by
      rw [pixels_of_bytes_length, h]
      norm_num [WIDTH, HEIGHT]
    rw [decode_frame,
      reindex_aux_length (pixels_of_bytes bs) 0 [] (by simp [prev_len]), hp]
    norm_num [prev_len, decode_row, WIDTH, HEIGHT]
  · norm_num [WIDTH, HEIGHT]

/-- C2 witness: the size computation evaluated on a concrete byte stream
of the nominal length. -/
theorem C2_decode_frame_size_witness :
    (List.replicate (3 * (WIDTH * HEIGHT)) 0).length = 3 * (WIDTH * HEIGHT) ∧
    ((decode_frame (List.replicate (3 * (WIDTH * HEIGHT)) 0)).length =
        WIDTH * (HEIGHT + 1) ∧
      WIDTH * (HEIGHT + 1) ≠ WIDTH * HEIGHT) :=
  ⟨by simp, C2_decode_frame_size (List.replicate (3 * (WIDTH * HEIGHT)) 0) (by simp)⟩

lemma getD_set_ne (l : List Nat) {i j : Nat} (v : Nat) (h : i ≠ j) :
    (l.set i v).getD j 0 = l.getD j 0 := by
  simp [List.getD_eq_getElem?_getD, List.getElem?_set_ne h]

lemma getD_append_replicate (buf : List Nat) (j : Nat) :
    (buf ++ List.replicate WIDTH 0).getD j 0 = buf.getD j 0 := by
  rcases Nat.lt_or_ge j buf.length with hj | hj
  · simp [List.getD_eq_getElem?_getD, List.getElem?_append_left hj]
  · rw [List.getD_eq_getElem?_getD, List.getElem?_append_right hj,
      List.getD_eq_getElem?_getD, List.getElem?_eq_none hj]
    simp [List.getElem?_replicate]
    split <;> rfl

lemma decode_index_lt (idx : Nat) : decode_index idx < decode_row idx * WIDTH := by
  simp only [decode_index, decode_row, WIDTH]
  omega

lemma decode_index_inj {i j : Nat} (h : decode_index i = decode_index j) : i = j := by
  simp only [decode_index, decode_row, WIDTH] at h
  omega

lemma reindex_step_length_ge (buf : List Nat) (idx p : Nat) :
    buf.length ≤ (reindex_step buf idx p).length := by
  rw [reindex_step, List.length_set]
  split
  · simp
  · exact le_refl _

lemma reindex_aux_getD_frozen :
    ∀ (ps : List Nat) (idx : Nat) (buf : List Nat) (j : Nat), j < buf.length →
      (∀ t, idx ≤ t → decode_index t ≠ j) →
      (reindex_aux idx buf ps).getD j 0 = buf.getD j 0
  | [], _, _, _, _, _ => rfl
  | p :: ps, idx, buf, j, hj, hne => by
    rw [reindex_aux,
      reindex_aux_getD_frozen ps (idx + 1) _ j
        (lt_of_lt_of_le hj (reindex_step_length_ge buf idx p))
        (fun t ht => hne t (by omega))]
    rw [reindex_step, getD_set_ne _ _ (hne idx (le_refl idx))]
    split
    · next h3 => exact getD_append_replicate buf j
    · rfl

lemma reindex_aux_write (ps : List Nat) (idx : Nat) (buf : List Nat) (v : Nat)
    (h : buf.length = prev_len idx) :
    (reindex_aux idx buf (v :: ps)).getD (decode_index idx) 0 = v := by
  rw [reindex_aux]
  have hlen : (reindex_step buf idx v).length = decode_row idx * WIDTH :=
    reindex_step_length v h
  have hlt : decode_index idx < (reindex_step buf idx v).length := by
    rw [hlen]
    exact decode_index_lt idx
  rw [reindex_aux_getD_frozen ps (idx + 1) _ _ hlt
    (fun t ht he => by have := decode_index_inj he; omega)]
  rw [reindex_step] at hlt ⊢
  rw [List.length_set] at hlt
  simp [List.getD_eq_getElem?_getD, List.getElem?_set_self hlt]

lemma reindex_aux_append :
    ∀ (as bs : List Nat) (idx : Nat) (buf : List Nat),
      reindex_aux idx buf (as ++ bs) =
        reindex_aux (idx + as.length) (reindex_aux idx buf as) bs
  | [], bs, idx, buf => by simp [reindex_aux]
  | a :: as, bs, idx, buf => by
    rw [List.cons_append, reindex_aux, reindex_aux,
      reindex_aux_append as bs (idx + 1), List.length_cons,
      show idx + (as.length + 1) = idx + 1 + as.length by omega]

lemma decode_index_ne_one (t : Nat) : decode_index t ≠ 1 := by
  simp only [decode_index, decode_row, WIDTH]
  omega

lemma reindex_aux_getD_one :
    ∀ (ps : List Nat) (idx : Nat) (buf : List Nat), buf.getD 1 0 = 0 →
      (reindex_aux idx buf ps).getD 1 0 = 0
  | [], _, _, h => h
  | p :: ps, idx, buf, h => by
    rw [reindex_aux]
    apply reindex_aux_getD_one ps (idx + 1)
    rw [reindex_step, getD_set_ne _ _ (decode_index_ne_one idx)]
    split
    · rw [getD_append_replicate]
      exact h
    · exact h

lemma pixels_of_bytes_replicate :
    ∀ (n c : Nat), pixels_of_bytes (List.replicate (3 * n) c) =
      List.replicate n (pack_rgb c c c)
  | 0, c => rfl
  | n + 1, c => by
    rw [show 3 * (n + 1) = 3 * n + 1 + 1 + 1 by omega, List.replicate_succ,
      List.replicate_succ, List.replicate_succ]
    simp only [pixels_of_bytes]
    rw [pixels_of_bytes_replicate n c, ← List.replicate_succ]

/-- C3 counterexample: the decoder output is not in canonical raster
order. On the all-ones frame of nominal size, the claim would put the
packed value of source row 0, column 1 at output position 1; but the code
never writes output position 1 at all (it keeps the fill value 0), because
line 77 sends every pixel with a nonzero column index into the following
row, mirrored. -/
theorem C3_not_raster_order :
    ¬ (∀ bs : List Nat, bs.length = 3 * (WIDTH * HEIGHT) →
        ∀ y x : Nat, y < HEIGHT → x < WIDTH →
          (decode_frame bs).getD (y * WIDTH + x) 0 =
            (pixels_of_bytes bs).getD (y * WIDTH + x) 0) := by
  intro hcl
  have h1 := hcl (List.replicate (3 * (WIDTH * HEIGHT)) 1) (by simp) 0 1
    (by norm_num [HEIGHT]) (by norm_num [WIDTH])
  rw [show (0 * WIDTH + 1 : Nat) = 1 by omega] at h1
  have h2 : (decode_frame (List.replicate (3 * (WIDTH * HEIGHT)) 1)).getD 1 0 = 0 := by
    rw [decode_frame]
    apply reindex_aux_getD_one
    rfl
  have h3 : (pixels_of_bytes (List.replicate (3 * (WIDTH * HEIGHT)) 1)).getD 1 0 =
      pack_rgb 1 1 1 := by
    rw [pixels_of_bytes_replicate (WIDTH * HEIGHT) 1, List.getD_eq_getElem?_getD,
      List.getElem?_replicate_of_lt (by norm_num [WIDTH, HEIGHT])]
    rfl
  rw [h2, h3] at h1
  exact absurd h1 (by decide)

/-- C3 amended: the reindexing is a pure, injective index transform that
preserves each packed pixel value, but the order it produces is not the
canonical raster order: the source pixel of row y, column x lands at
output position y * WIDTH + (WIDTH - 1) when x = 0, and at position
(y + 1) * WIDTH + (WIDTH - 1 - x) when x > 0 (a horizontal mirror with the
pixel pushed one row down), never at y * WIDTH + x in general. -/
theorem C3_reindex_transform (bs : List Nat)
    (h : bs.length = 3 * (WIDTH * HEIGHT)) (y x : Nat)
    (hy : y < HEIGHT) (hx : x < WIDTH) :
    (decode_frame bs).getD (decode_index (y * WIDTH + x)) 0 =
      (pixels_of_bytes bs).getD (y * WIDTH + x) 0 ∧
    decode_index (y * WIDTH + x) =
      if x = 0 then y * WIDTH + (WIDTH - 1)
      else (y + 1) * WIDTH + (WIDTH - 1 - x) := by
  have hp : (pixels_of_bytes bs).length = WIDTH * HEIGHT := by
    rw [pixels_of_bytes_length, h]
    norm_num [WIDTH, HEIGHT]
  have hidx : y * WIDTH + x < (pixels_of_bytes bs).length := by
    rw [hp]
    simp only [WIDTH, HEIGHT] at hx hy ⊢
    omega
  constructor
  · have hdrop : (pixels_of_bytes bs).drop (y * WIDTH + x) =
        (pixels_of_bytes bs).getD (y * WIDTH + x) 0 ::
          (pixels_of_bytes bs).drop (y * WIDTH + x + 1) := by
      rw [List.drop_eq_getElem_cons hidx]
      congr 1
      rw [List.getD_eq_getElem?_getD, List.getElem?_eq_getElem hidx]
      rfl
    have heq : pixels_of_bytes bs =
        (pixels_of_bytes bs).take (y * WIDTH + x) ++
          ((pixels_of_bytes bs).getD (y * WIDTH + x) 0 ::
            (pixels_of_bytes bs).drop (y * WIDTH + x + 1)) := by
      conv_lhs => rw [← List.take_append_drop (y * WIDTH + x) (pixels_of_bytes bs)]
      rw [hdrop]
    have hlen_take : ((pixels_of_bytes bs).take (y * WIDTH + x)).length =
        y * WIDTH + x := by
      rw [List.length_take]
      omega
    have hbuf := reindex_aux_length ((pixels_of_bytes bs).take (y * WIDTH + x)) 0 []
      (by simp [prev_len])
    rw [hlen_take, Nat.zero_add] at hbuf
    rw [decode_frame]
    conv_lhs => rw [heq]
    rw [reindex_aux_append, hlen_take, Nat.zero_add]
    exact reindex_aux_write _ (y * WIDTH + x) _ _ hbuf
  · have hx2 : x < 1280 := by simpa [WIDTH] using hx
    simp only [decode_index, decode_row, WIDTH]
    split
    · next h0 =>
      subst h0
      omega
    · next h0 =>
      omega

/-- C3 witness: the transform evaluated at source row 0, column 1 of the
all-ones frame of nominal size. -/
theorem C3_reindex_transform_witness :
    (List.replicate (3 * (WIDTH * HEIGHT)) 1).length = 3 * (WIDTH * HEIGHT) ∧
    (0 : Nat) < HEIGHT ∧ (1 : Nat) < WIDTH ∧
    ((decode_frame (List.replicate (3 * (WIDTH * HEIGHT)) 1)).getD
        (decode_index (0 * WIDTH + 1)) 0 =
      (pixels_of_bytes (List.replicate (3 * (WIDTH * HEIGHT)) 1)).getD
        (0 * WIDTH + 1) 0 ∧
      decode_index (0 * WIDTH + 1) =
        if (1 : Nat) = 0 then 0 * WIDTH + (WIDTH - 1)
        else (0 + 1) * WIDTH + (WIDTH - 1 - 1)) :=
  ⟨by simp, by norm_num [HEIGHT], by norm_num [WIDTH],
    C3_reindex_transform (List.replicate (3 * (WIDTH * HEIGHT)) 1) (by simp) 0 1
      (by norm_num [HEIGHT]) (by norm_num [WIDTH])⟩
